import Mathlib

/-!
Verification of the command-routing and session state machine of the
JOB-HUNTING-AGENT repository.

Python strings are modelled as lists of characters (`Str`); the Python
string operations used by the router and handlers (`strip`, `lower`,
`split`, `replace`, `startswith`, `join`, `int(...)`, slicing) are given
executable Lean counterparts.  Each LangGraph node of the agent is
embedded as a pure function from the session state (plus the outputs of
its external collaborators, passed as explicit parameters) to a partial
state update (`StateDelta`).  An uncaught Python exception escaping a
handler is modelled by `Except.error`.
-/

/-- Python strings, modelled as lists of characters. -/
abbrev Str := List Char

/-- Coerce a Lean string literal into the `Str` model. -/
def str (s : String) : Str := s.data

/-- Python `s.startswith(pat)`. -/
def startsWithL : Str → Str → Bool
  | _, [] => true
  | [], _ :: _ => false
  | c :: cs, p :: ps => c == p && startsWithL cs ps

/-- Fuel-driven worker for `pyRemoveAll`; the fuel is always instantiated
with the length of the scanned string, which bounds the number of steps. -/
def removeAllAux (pat : Str) : Nat → Str → Str
  | _, [] => []
  | 0, s => s
  | fuel + 1, c :: cs =>
    if startsWithL (c :: cs) pat && !pat.isEmpty then
      removeAllAux pat fuel ((c :: cs).drop pat.length)
    else c :: removeAllAux pat fuel cs

/-- Python `s.replace(pat, "")`: remove every (left-to-right,
non-overlapping) occurrence of `pat` from `s`. -/
def pyRemoveAll (pat s : Str) : Str := removeAllAux pat s.length s

/-- Worker for `pySplitWs`; `w` is the current word, reversed. -/
def splitWsAux : Str → Str → List Str
  | [], w => if w.isEmpty then [] else [w.reverse]
  | c :: cs, w =>
    if c.isWhitespace then
      (if w.isEmpty then splitWsAux cs [] else w.reverse :: splitWsAux cs [])
    else splitWsAux cs (c :: w)

/-- Python `s.split()`: split on runs of whitespace, dropping empty parts. -/
def pySplitWs (s : Str) : List Str := splitWsAux s []

/-- Python `s.lstrip()`. -/
def pyLStrip (s : Str) : Str := s.dropWhile Char.isWhitespace

/-- Python `s.strip()`. -/
def pyStrip (s : Str) : Str :=
  ((pyLStrip s).reverse.dropWhile Char.isWhitespace).reverse

/-- Python `s.lower()` (ASCII case folding, which covers every character
appearing in the commands the router recognises). -/
def pyLower (s : Str) : Str := s.map Char.toLower

/-- Python `" ".join(xs)` respectively `sep.join(xs)`. -/
def pyJoinSep (sep : Str) (xs : List Str) : Str := List.intercalate sep xs

/-- Python `" ".join(xs)`. -/
def pyJoin (xs : List Str) : Str := pyJoinSep [' '] xs

/-- Decimal rendering of a natural number, as Python `str(n)` produces it. -/
def natToDigits (n : Nat) : Str := Nat.toDigits 10 n

/-- Digit-string parsing worker for `pyInt`. -/
def digitsToNat? (ds : Str) : Option Nat :=
  if !ds.isEmpty && ds.all Char.isDigit then
    some (ds.foldl (fun a c => a * 10 + (c.toNat - 48)) 0)
  else none

/-- Python `int(s)` on ASCII decimal literals: surrounding whitespace and an
optional single sign are accepted, everything else raises `ValueError`
(modelled by `none`).  Underscore separators and non-ASCII digits, which
CPython would also accept, are not modelled. -/
def pyInt (s : Str) : Option Int :=
  match pyStrip s with
  | [] => none
  | c :: ds =>
    if c = '-' then (digitsToNat? ds).map (fun m => -(m : Int))
    else if c = '+' then (digitsToNat? ds).map (fun m => (m : Int))
    else (digitsToNat? (c :: ds)).map (fun m => (m : Int))

/-- Python truthiness of an optional string: `None` and `""` are falsy. -/
def pyTruthy : Option Str → Bool
  | none => false
  | some s => !s.isEmpty

/-- Python list indexing `l[i]`: negative indices count from the end and an
out-of-range index raises `IndexError` (modelled by `none`). -/
def pyIndex {α : Type} (l : List α) (i : Int) : Option α :=
  let j : Int := if i < 0 then (l.length : Int) + i else i
  if j < 0 then none else l.get? j.toNat

/-- Python `None` is rendered as the string `None` inside an f-string. -/
def pyShowOpt : Option Str → Str
  | none => str "None"
  | some s => s

/-- A job record as stored in `jobs_found` (title, company, location,
salary, link, source, snippet); `dict.get` accesses with string defaults
are modelled as total field accesses. -/
structure Job where
  title : Str
  company : Str
  location : Str
  salary : Str
  link : Str
  source : Str
  snippet : Str
  deriving DecidableEq

/-- The links of a list of jobs, in order (the dedup key of fetch-more). -/
def linksOf (js : List Job) : List Str := js.map Job.link

/-- The session state, mirroring `JobAgentState` of `agent/state.py`;
messages carry only their text content. -/
structure AgentState where
  telegram_user_id : Str
  base_resume : Option Str
  search_query : Option Str
  location : Option Str
  jobs_found : List Job
  selected_job_index : Option Int
  selected_job : Option Job
  customized_resume : Option Str
  cover_letter : Option Str
  composed_pdf_path : Option Str
  sheets_exported : Bool
  sheets_url : Option Str
  messages : List Str
  current_action : Str
  response : Str
  error : Option Str
  deriving DecidableEq

/-- `create_initial_state` of `agent/state.py`. -/
def create_initial_state (uid : Str) : AgentState :=
  { telegram_user_id := uid
    base_resume := none
    search_query := none
    location := none
    jobs_found := []
    selected_job_index := none
    selected_job := none
    customized_resume := none
    cover_letter := none
    composed_pdf_path := none
    sheets_exported := false
    sheets_url := none
    messages := []
    current_action := []
    response := []
    error := none }

/-- A partial state update returned by a node: `none` means the key is
absent from the returned dict.  The `error` key can be present with value
`None` (`some none`) or with a string (`some (some e)`). -/
structure StateDelta where
  current_action : Option Str := none
  response : Option Str := none
  search_query : Option Str := none
  location : Option Str := none
  selected_job_index : Option Int := none
  jobs_found : Option (List Job) := none
  selected_job : Option Job := none
  customized_resume : Option Str := none
  cover_letter : Option Str := none
  composed_pdf_path : Option Str := none
  error : Option (Option Str) := none
  deriving DecidableEq

/-- The LangGraph merge of a node result into the session state: keys
present in the delta overwrite, absent keys leave the state untouched
(`messages` has an append reducer, and none of the embedded nodes writes
it, so it is always preserved). -/
def applyDelta (s : AgentState) (d : StateDelta) : AgentState :=
  { s with
    current_action := d.current_action.getD s.current_action
    response := d.response.getD s.response
    search_query := (d.search_query.map some).getD s.search_query
    location := (d.location.map some).getD s.location
    selected_job_index := (d.selected_job_index.map some).getD s.selected_job_index
    jobs_found := d.jobs_found.getD s.jobs_found
    selected_job := (d.selected_job.map some).getD s.selected_job
    customized_resume := (d.customized_resume.map some).getD s.customized_resume
    cover_letter := (d.cover_letter.map some).getD s.cover_letter
    composed_pdf_path := (d.composed_pdf_path.map some).getD s.composed_pdf_path
    error := d.error.getD s.error }

/-- `HELP_MESSAGE` of `agent/nodes/router.py`. -/
def HELP_MESSAGE : Str := str "🤖 **Job Agent Bot Commands**\n\n**/search `<keywords>` `<location>`**\nSearch for jobs. Example: `/search python developer remote`\n\n**/customize `<job_number>`**\nCustomize your resume for a specific job from search results.\nExample: `/customize 1`\n\n**/compose**\nCompose your customized resume and cover letter into a professional PDF for download.\n\n**/export**\nExport all found jobs to your Google Sheet.\n\n**/more**\nFind more jobs from other platforms (Remotive, etc.) based on your last search.\n\n**/resume**\nUpload a new resume (send as file after this command).\n\n**/chat `<any message>`**\nChat with me! Ask for job suggestions, career advice, or why you should apply to certain jobs.\n\n**/help**\nShow this help message.\n\n---\n💡 **Quick Start:**\n1. Upload your resume with /resume\n2. Search jobs with /search\n3. Pick a job number to customize your resume\n4. Compose your professional PDF with /compose\n5. Export all jobs to Google Sheets with /export\n"

/-- `START_MESSAGE` of `agent/nodes/router.py`. -/
def START_MESSAGE : Str := str "👋 **Welcome to Job Agent Bot!**\n\nI help you find jobs, customize your resume, and track applications.\n\n**Before we start:**\n1. Make sure your `.env` file has all API keys configured\n2. Upload your base resume using /resume\n\nUse /help to see all available commands.\n\n🚀 Ready when you are!\n"

/-- Delta returned for an empty message list and for `/help`. -/
def helpDelta : StateDelta :=
  { current_action := some (str "help"), response := some HELP_MESSAGE }

/-- Delta returned for `/start`. -/
def startDelta : StateDelta :=
  { current_action := some (str "start"), response := some START_MESSAGE }

/-- Usage-error delta for `/search` with no arguments. -/
def searchUsageDelta : StateDelta :=
  { current_action := some (str "help")
    response := some (str "❌ Usage: /search `<keywords>` `<location>`\nExample: /search python developer remote") }

/-- Search intent delta carrying the parsed keywords and location. -/
def searchDelta (keywords loc : Str) : StateDelta :=
  { current_action := some (str "search")
    search_query := some keywords
    location := some loc }

/-- Usage-error delta for `/customize` with no argument. -/
def customizeUsageDelta : StateDelta :=
  { current_action := some (str "help")
    response := some (str "❌ Usage: /customize `<job_number>`\nExample: /customize 1") }

/-- Usage-error delta for `/customize` with a non-integer argument. -/
def customizeBadNumDelta : StateDelta :=
  { current_action := some (str "help")
    response := some (str "❌ Please provide a valid job number.\nExample: /customize 1") }

/-- Customize intent delta carrying the already 0-based job index. -/
def customizeDelta (idx : Int) : StateDelta :=
  { current_action := some (str "customize"), selected_job_index := some idx }

/-- Prompt-only delta for `/resume`. -/
def resumePromptDelta : StateDelta :=
  { current_action := some (str "help")
    response := some (str "📄 Please send your resume file (PDF, DOCX, or TXT) as a reply to this message.") }

/-- The fixed location-keyword set of the `/search` parser. -/
def locationKeywords : List Str := [str "remote", str "hybrid", str "onsite"]

/-- The `/search` argument parsing of `router_node` (lines 97-119), applied
to the whitespace-split argument tokens. -/
def parseSearchParts (parts : List Str) : StateDelta :=
  if parts.length < 1 then searchUsageDelta
  else if locationKeywords.contains (pyLower (parts.getLastD [])) || decide (2 < parts.length) then
    searchDelta (pyJoin parts.dropLast) (parts.getLastD [])
  else
    searchDelta (pyJoin parts) (str "remote")

/-- The `/customize` argument parsing of `router_node` (lines 123-141),
applied to the whitespace-split argument tokens. -/
def parseCustomizeParts (parts : List Str) : StateDelta :=
  if parts.length < 1 then customizeUsageDelta
  else
    match pyInt (parts.headD []) with
    | some n => customizeDelta (n - 1)
    | none => customizeBadNumDelta

/-- Lines 83-183 of `router_node`: command dispatch on the already
stripped and lower-cased message text. -/
def routerCore (s : Str) : StateDelta :=
  if startsWithL s (str "/start") then startDelta
  else if startsWithL s (str "/help") then helpDelta
  else if startsWithL s (str "/search") then
    parseSearchParts (pySplitWs (pyStrip (pyRemoveAll (str "/search") s)))
  else if startsWithL s (str "/customize") then
    parseCustomizeParts (pySplitWs (pyStrip (pyRemoveAll (str "/customize") s)))
  else if startsWithL s (str "/export") then { current_action := some (str "export") }
  else if startsWithL s (str "/resume") then resumePromptDelta
  else if startsWithL s (str "/chat") then { current_action := some (str "chat") }
  else if startsWithL s (str "/more") then { current_action := some (str "more") }
  else if startsWithL s (str "/compose") then { current_action := some (str "compose") }
  else
    match pyInt s with
    | some n => customizeDelta (n - 1)
    | none => { current_action := some (str "chat") }

/-- `router_node` of `agent/nodes/router.py`: empty message list yields the
help delta, otherwise the last message is stripped, lower-cased and parsed. -/
def router_node (state : AgentState) : StateDelta :=
  match state.messages.getLast? with
  | none => helpDelta
  | some m => routerCore (pyLower (pyStrip m))

/-- `format_job` of `tools/jooble_api.py`. -/
def format_job (j : Job) (i : Nat) : Str :=
  natToDigits i ++ str ". " ++ j.title ++ str "\n🏢 " ++ j.company ++
  str "\n📍 " ++ j.location ++ str "\n💰 " ++ j.salary ++
  str "\n📝 " ++ j.snippet.take 150 ++ str "...\n🔗 " ++ j.link ++ str "\n"

/-- The display loop of `job_search_node`: jobs numbered from `i`, each
followed by a blank line. -/
def renderJoobleJobs : Nat → List Job → Str
  | _, [] => []
  | i, j :: js => format_job j i ++ str "\n" ++ renderJoobleJobs (i + 1) js

/-- Header-plus-listing response of a successful search.  `loc` is the
stored location value; `dict.get` with a default returns the stored `None`
when the key is present, and an f-string renders it as `None`. -/
def searchFoundMsg (q : Str) (loc : Option Str) (total : Nat) (jobs : List Job) : Str :=
  str "🔍 *Found " ++ natToDigits total ++ str " recent jobs (last 3 days) for '" ++
  q ++ str "' in '" ++ pyShowOpt loc ++ str "':*\n\n" ++
  renderJoobleJobs 1 (jobs.take 10) ++
  str "\n💡 Reply with /customize <number> to customize your resume for a job."

/-- Empty-result response of a search. -/
def searchEmptyMsg (q : Str) (loc : Option Str) : Str :=
  str "🔍 No jobs found for '" ++ q ++ str "' in '" ++ pyShowOpt loc ++
  str "'.\nTry different keywords or location."

/-- `job_search_node` of `agent/nodes/job_search.py`.  The Jooble
collaborator result is passed explicitly: `Except.error e` models a dict
containing an `error` key, `.ok (jobs, total)` a successful reply. -/
def job_search_node (state : AgentState) (api : Except Str (List Job × Nat)) : StateDelta :=
  if !pyTruthy state.search_query then
    { response := some (str "❌ Please provide search keywords.\nExample: /search python developer remote")
      error := some (some (str "No search query provided")) }
  else
    match api with
    | .error e =>
      { response := some (str "❌ Search failed: " ++ e)
        error := some (some e)
        jobs_found := some [] }
    | .ok (jobs, total) =>
      if jobs.isEmpty then
        { response := some (searchEmptyMsg (state.search_query.getD []) state.location)
          jobs_found := some []
          error := some none }
      else
        { jobs_found := some (jobs.take 10)
          response := some (searchFoundMsg (state.search_query.getD []) state.location total jobs)
          error := some none }

/-- Delta for `/customize` without a selected index. -/
def noJobSelectedDelta : StateDelta :=
  { response := some (str "❌ No job selected. Use /customize <number> after searching.")
    error := some (some (str "No job selected")) }

/-- Delta for `/customize` with empty search results. -/
def noJobsDelta : StateDelta :=
  { response := some (str "❌ No jobs in search results. Use /search first.")
    error := some (some (str "No jobs found")) }

/-- Delta for an out-of-range job index; the message shows the valid
range `1-n` where `n` is the number of jobs found. -/
def invalidIdxDelta (n : Nat) : StateDelta :=
  { response := some (str "❌ Invalid job number. Please choose 1-" ++ natToDigits n ++ str ".")
    error := some (some (str "Invalid job index")) }

/-- Delta for `/customize` without an uploaded resume. -/
def noResumeDelta : StateDelta :=
  { response := some (str "❌ No resume uploaded. Please send your resume file first with /resume.")
    error := some (some (str "No resume")) }

/-- The job-description block built by `customizer_node`. -/
def jobDesc (j : Job) : Str :=
  str "\nTitle: " ++ j.title ++ str "\nCompany: " ++ j.company ++
  str "\nLocation: " ++ j.location ++ str "\nDescription: " ++ j.snippet ++ str "\n"

/-- Success response of `customizer_node` (resume preview truncated to
2000 characters, cover letter to 1500). -/
def customizeSuccessMsg (j : Job) (cr cl : Str) : Str :=
  str "✅ *Documents Generated for " ++ j.title ++ str " at " ++ j.company ++
  str "*\n\n📄 *Customized Resume:*\n" ++ cr.take 2000 ++
  str "...\n\n📝 *Cover Letter:*\n" ++ cl.take 1500 ++
  str "...\n\n💡 Use /export to save all jobs to Google Sheets.\n🔗 Apply here: " ++
  j.link ++ str "\n"

/-- The `try` block of `customizer_node` (lines 56-93): the two LLM calls
are passed as explicit results; a raised exception in either call is
`Except.error` and becomes the generation-error delta.  The second call is
never consulted when the first one raises. -/
def customizerGenerate (j : Job) (r1 r2 : Except Str Str) : StateDelta :=
  match r1 with
  | .error e =>
    { response := some (str "❌ Error generating documents: " ++ e), error := some (some e) }
  | .ok cr =>
    match r2 with
    | .error e =>
      { response := some (str "❌ Error generating documents: " ++ e), error := some (some e) }
    | .ok cl =>
      { selected_job := some j
        customized_resume := some cr
        cover_letter := some cl
        response := some (customizeSuccessMsg j cr cl)
        error := some none }

/-- `customizer_node` of `agent/nodes/customizer.py`.  The outer `Except`
models an uncaught Python exception escaping the handler (the only
candidate is the unguarded list access `jobs[job_index]` on line 45, which
sits outside the `try` block). -/
def customizer_node (state : AgentState) (r1 r2 : Except Str Str) : Except Str StateDelta :=
  match state.selected_job_index with
  | none => .ok noJobSelectedDelta
  | some idx =>
    if state.jobs_found.isEmpty then .ok noJobsDelta
    else if idx < 0 || (state.jobs_found.length : Int) ≤ idx then
      .ok (invalidIdxDelta state.jobs_found.length)
    else if !pyTruthy state.base_resume then .ok noResumeDelta
    else
      match pyIndex state.jobs_found idx with
      | none => .error (str "IndexError")
      | some j => .ok (customizerGenerate j r1 r2)

/-- Precondition-failure delta of `composer_node`. -/
def missingDocsDelta : StateDelta :=
  { response := some (str "❌ No customized resume or cover letter found. Please use /customize first.")
    error := some (some (str "Missing documents for composition")) }

/-- `composer_node` of `agent/nodes/composer.py`.  `composeRes` is the
result of the `compose_docs` collaborator (`.error` models a raised
exception), `pathEx` the `os.path.exists` check. -/
def composer_node (state : AgentState) (composeRes : Except Str Str)
    (pathEx : Str → Bool) : StateDelta :=
  if !pyTruthy state.customized_resume || !pyTruthy state.cover_letter then
    missingDocsDelta
  else
    match composeRes with
    | .error e =>
      { response := some (str "❌ Error composing document: " ++ e), error := some (some e) }
    | .ok p =>
      if pathEx p then
        { composed_pdf_path := some p
          response := some (str "✨ **Professional Job Application Composed!**\n\nI've combined your customized resume and cover letter into a well-managed PDF. Sending the file to you now...")
          error := some none }
      else
        { response := some (str "❌ Failed to generate PDF document.")
          error := some (some (str "File not created")) }

/-- The query-recovery fallback of `more_jobs_node` (lines 18-26): scan the
messages from newest to oldest for the last `/search` command; the input
list is already reversed.  A `/search` message without tokens does not
stop the scan. -/
def recoverQuery : List Str → Option Str
  | [] => none
  | m :: ms =>
    if startsWithL m (str "/search") then
      let parts := pySplitWs (pyStrip (pyRemoveAll (str "/search") m))
      if !parts.isEmpty then
        some (if 1 < parts.length then pyJoin parts.dropLast else parts.headD [])
      else recoverQuery ms
    else recoverQuery ms

/-- The Remotive loop of `more_jobs_node` (lines 51-55): append every job
whose link is unseen; no cap applies in this phase. -/
def remotivePhase : List Job → List Job → List Str → List Job × List Str
  | [], acc, seen => (acc, seen)
  | j :: js, acc, seen =>
    if seen.contains j.link then remotivePhase js acc seen
    else remotivePhase js (acc ++ [j]) (seen ++ [j.link])

/-- The inner loop over one variation result (lines 65-70): append unseen
jobs, and break out as soon as 20 jobs have accumulated. -/
def googleInner : List Job → List Job → List Str → List Job × List Str
  | [], acc, seen => (acc, seen)
  | j :: js, acc, seen =>
    if seen.contains j.link then googleInner js acc seen
    else
      if 20 ≤ (acc ++ [j]).length then (acc ++ [j], seen ++ [j.link])
      else googleInner js (acc ++ [j]) (seen ++ [j.link])

/-- The variation loop of `more_jobs_node` (lines 58-70): before each
secondary search, stop if 15 jobs have already accumulated. -/
def googlePhase (google : Str → Option Str → List Job) (loc : Option Str) :
    List Str → List Job → List Str → List Job × List Str
  | [], acc, seen => (acc, seen)
  | v :: vs, acc, seen =>
    if 15 ≤ acc.length then (acc, seen)
    else
      let p := googleInner (google v loc) acc seen
      googlePhase google loc vs p.1 p.2

/-- One line of the fetch-more listing (numbered from the old length + 1). -/
def moreJobLine (i : Nat) (j : Job) : Str :=
  natToDigits i ++ str ". " ++ j.title ++ str "\n🏢 " ++ j.company ++
  str " (via " ++ j.source ++ str ")\n💰 " ++ j.salary ++
  str "\n🔗 " ++ j.link ++ str "\n\n"

/-- The listing loop of `more_jobs_node` (lines 89-95). -/
def renderMoreJobs : Nat → List Job → Str
  | _, [] => []
  | i, j :: js => moreJobLine i j ++ renderMoreJobs (i + 1) js

/-- The full response of a successful fetch-more turn (lines 85-97). -/
def moreFoundMsg (q : Str) (variations : List Str) (startIdx : Nat)
    (extra : List Job) : Str :=
  str "🚀 **Smart Variety Search for '" ++ q ++ str "':**\n💡 Also searched for: _" ++
  pyJoinSep (str ", ") ((variations.drop 1).take 3) ++ str "_\n\n" ++
  renderMoreJobs startIdx extra ++
  str "✅ Found " ++ natToDigits extra.length ++
  str " extra jobs! Use /customize <number> to pick one."

/-- The no-results response of a fetch-more turn. -/
def moreEmptyMsg (q : Str) : Str :=
  str "🔍 No additional recent jobs found for '" ++ q ++ str "' or related fields."

/-- `more_jobs_node` of `agent/nodes/more_jobs.py`.  The collaborators are
explicit: `variations` is the query-expander output, `remotive` the
Remotive search result for the direct query, and `google` the secondary
search keyed by variation and location. -/
def more_jobs_node (state : AgentState) (variations : List Str)
    (remotive : List Job) (google : Str → Option Str → List Job) : StateDelta :=
  let query0 := state.search_query
  let query1 := if !pyTruthy query0 then recoverQuery state.messages.reverse else query0
  if !pyTruthy query1 then
    { response := some (str "❌ No previous search found. Please use /search first.")
      error := some (some (str "No query found for more jobs")) }
  else
    let q := query1.getD []
    let loc := state.location
    let seen0 := linksOf state.jobs_found
    let p1 := remotivePhase remotive [] seen0
    let p2 := googlePhase google loc variations p1.1 p1.2
    let allExtra := p2.1
    if allExtra.isEmpty then
      { response := some (moreEmptyMsg q), error := some none }
    else
      { jobs_found := some (state.jobs_found ++ allExtra)
        response := some (moreFoundMsg q variations (state.jobs_found.length + 1) allExtra)
        error := some none }

/-- Python `range(start, stop, step)` for non-negative arguments. -/
def rangeStep (start stop step : Nat) : List Nat :=
  if _h : start < stop ∧ 0 < step then start :: rangeStep (start + step) stop step else []
termination_by stop - start
decreasing_by omega

/-- The chunking comprehension of `customize_command` in
`bot/telegram_handler.py` (line 129): `[response[i:i+4000] for i in
range(0, len(response), 4000)]`. -/
def pySliceChunks (resp : Str) : List Str :=
  (rangeStep 0 resp.length 4000).map (fun i => (resp.drop i).take 4000)

/-- The delivery split of `customize_command` (lines 126-133): responses
longer than 4000 characters are sent as consecutive 4000-character slices,
shorter ones as a single message. -/
def sendResponseChunks (resp : Str) : List Str :=
  if 4000 < resp.length then pySliceChunks resp else [resp]

/-- A sample job used by the concrete evaluation theorems, keyed by link. -/
def sampleJob (l : Str) : Job :=
  { title := str "T", company := str "C", location := str "L", salary := str "S"
    link := l, source := str "Src", snippet := str "D" }

/-- A blank session for a fixed user id. -/
def baseState : AgentState := create_initial_state (str "u")

/-- A secondary-search collaborator returning no jobs. -/
def emptyGoogle : Str → Option Str → List Job := fun _ _ => []

/-- 21 jobs with pairwise distinct links, as an oversized Remotive reply. -/
def manyLinkedJobs : List Job := (List.range 21).map (fun i => sampleJob (natToDigits i))

/-- Session with one prior search result and a stored query. -/
def stSearchDone : AgentState :=
  { baseState with search_query := some (str "python"), jobs_found := [sampleJob (str "a")] }

/-- Session with two search results, a resume, and selected index 5. -/
def stTwoJobs : AgentState :=
  { baseState with
    jobs_found := [sampleJob (str "a"), sampleJob (str "b")]
    base_resume := some (str "resume text")
    selected_job_index := some 5 }

/-- Session with no search results but selected index 0. -/
def stNoJobs : AgentState :=
  { baseState with selected_job_index := some 0, base_resume := some (str "resume text") }

/-- Session with one search result, a resume, and selected index 0. -/
def stOneJob : AgentState :=
  { baseState with
    jobs_found := [sampleJob (str "a")]
    base_resume := some (str "resume text")
    selected_job_index := some 0 }

/-- Session whose last message is the scenario search command. -/
def stScenario : AgentState :=
  { baseState with messages := [str "/search python developer remote"] }

/-- Session with a stored query and empty results, for fetch-more runs. -/
def stQueryOnly : AgentState := { baseState with search_query := some (str "q") }

/-- Session with one search result and the (negative) selected index -1,
as produced by parsing `/customize 0`. -/
def stNegIdx : AgentState :=
  { baseState with
    jobs_found := [sampleJob (str "a")]
    base_resume := some (str "resume text")
    selected_job_index := some (-1) }

theorem removeAllAux_fuel (pat : Str) :
    ∀ f₁ f₂ s, s.length ≤ f₁ → s.length ≤ f₂ →
      removeAllAux pat f₁ s = removeAllAux pat f₂ s := by
  intro f₁
  induction f₁ with
  | zero =>
    intro f₂ s h1 _
    have hs : s = [] := by
      cases s with
      | nil => rfl
      | cons c cs => simp at h1
    subst hs
    cases f₂ <;> rfl
  | succ f ih =>
    intro f₂ s h1 h2
    cases s with
    | nil => cases f₂ <;> rfl
    | cons c cs =>
      cases f₂ with
      | zero => simp at h2
      | succ f₂' =>
        simp only [removeAllAux]
        by_cases hc : (startsWithL (c :: cs) pat && !pat.isEmpty) = true
        · rw [if_pos hc, if_pos hc]
          have hp : 1 ≤ pat.length := by
            cases pat with
            | nil => simp at hc
            | cons a as => simp
          apply ih
          · simp only [List.length_drop, List.length_cons]
            simp only [List.length_cons] at h1
            omega
          · simp only [List.length_drop, List.length_cons]
            simp only [List.length_cons] at h2
            omega
        · rw [if_neg hc, if_neg hc]
          have h1' : cs.length ≤ f := by simp only [List.length_cons] at h1; omega
          have h2' : cs.length ≤ f₂' := by simp only [List.length_cons] at h2; omega
          rw [ih f₂' cs h1' h2']

theorem startsWithL_append_self (p r : Str) : startsWithL (p ++ r) p = true := by
  induction p with
  | nil => cases r <;> rfl
  | cons c cs ih => simp [startsWithL, ih]

theorem startsWithL_cons_ne (c p : Char) (u ps : Str) (h : c ≠ p) :
    startsWithL (c :: u) (p :: ps) = false := by
  simp [startsWithL, h]

theorem pyRemoveAll_head_match (pat rest : Str) (hp : pat ≠ []) :
    pyRemoveAll pat (pat ++ rest) = pyRemoveAll pat rest := by
  obtain ⟨p₀, ptl, rfl⟩ : ∃ p₀ ptl, pat = p₀ :: ptl := by
    cases pat with
    | nil => exact absurd rfl hp
    | cons a as => exact ⟨a, as, rfl⟩
  have hcond : (startsWithL (p₀ :: (ptl ++ rest)) (p₀ :: ptl) && !(p₀ :: ptl).isEmpty) = true := by
    have h := startsWithL_append_self (p₀ :: ptl) rest
    simp only [List.cons_append] at h
    simp [h]
  show removeAllAux (p₀ :: ptl) ((p₀ :: (ptl ++ rest)).length) (p₀ :: (ptl ++ rest)) =
    pyRemoveAll (p₀ :: ptl) rest
  rw [List.length_cons]
  simp only [removeAllAux]
  rw [if_pos hcond]
  simp only [List.length_cons, List.drop_succ_cons, List.drop_left]
  exact removeAllAux_fuel _ _ _ _ (by simp) (le_refl _)

theorem pyRemoveAll_fix_of_no_head (p₀ : Char) (ptl s : Str)
    (h : ∀ c ∈ s, c ≠ p₀) : pyRemoveAll (p₀ :: ptl) s = s := by
  have key : ∀ fuel s', (∀ c ∈ s', c ≠ p₀) → removeAllAux (p₀ :: ptl) fuel s' = s' := by
    intro fuel
    induction fuel with
    | zero => intro s' _; cases s' <;> rfl
    | succ f ih =>
      intro s' hs'
      cases s' with
      | nil => rfl
      | cons c cs =>
        have hc : c ≠ p₀ := hs' c (by simp)
        have hsw : startsWithL (c :: cs) (p₀ :: ptl) = false := by
          simp [startsWithL, hc]
        have step : removeAllAux (p₀ :: ptl) (f + 1) (c :: cs) =
            c :: removeAllAux (p₀ :: ptl) f cs := by
          simp [removeAllAux, hsw]
        rw [step, ih cs (fun x hx => hs' x (by simp [hx]))]
  exact key _ s h

theorem dropWhile_eq_self_of_all (p : Char → Bool) (l : Str)
    (h : ∀ c ∈ l, p c = false) : l.dropWhile p = l := by
  cases l with
  | nil => rfl
  | cons c cs => simp [List.dropWhile_cons, h c (by simp)]

theorem pyStrip_fix (s : Str) (h : ∀ c ∈ s, c.isWhitespace = false) : pyStrip s = s := by
  unfold pyStrip pyLStrip
  rw [dropWhile_eq_self_of_all _ _ h,
    dropWhile_eq_self_of_all _ _ (fun c hc => h c (List.mem_reverse.mp hc)),
    List.reverse_reverse]

theorem dropWhile_append_singleton (p : Char → Bool) (c : Char) (hc : p c = false) :
    ∀ A : Str, ∃ Y, List.dropWhile p (A ++ [c]) = Y ++ [c] := by
  intro A
  induction A with
  | nil => exact ⟨[], by simp [List.dropWhile, hc]⟩
  | cons a as ih =>
    by_cases hpa : p a = true
    · simpa [List.dropWhile_cons, hpa] using ih
    · exact ⟨a :: as, by simp [List.dropWhile_cons, hpa]⟩

theorem pyStrip_cons_of_head (c : Char) (u : Str) (hc : c.isWhitespace = false) :
    ∃ v, pyStrip (c :: u) = c :: v := by
  unfold pyStrip pyLStrip
  have h1 : (c :: u).dropWhile Char.isWhitespace = c :: u := by
    simp [List.dropWhile_cons, hc]
  rw [h1]
  have h2 : (c :: u).reverse = u.reverse ++ [c] := by simp
  rw [h2]
  obtain ⟨Y, hY⟩ := dropWhile_append_singleton Char.isWhitespace c hc u.reverse
  exact ⟨Y.reverse, by rw [hY]; simp⟩

theorem pyStrip_space_cons (l : Str) : pyStrip (' ' :: l) = pyStrip l := by
  unfold pyStrip pyLStrip
  simp [List.dropWhile_cons]

theorem splitWsAux_nonws : ∀ (l w : Str), (∀ c ∈ l, c.isWhitespace = false) →
    splitWsAux l w = if (w.reverse ++ l).isEmpty then [] else [w.reverse ++ l] := by
  intro l
  induction l with
  | nil =>
    intro w _
    cases w with
    | nil => rfl
    | cons a as => simp [splitWsAux]
  | cons c cs ih =>
    intro w h
    have hc : c.isWhitespace = false := h c (by simp)
    have step : splitWsAux (c :: cs) w = splitWsAux cs (c :: w) := by
      simp [splitWsAux, hc]
    rw [step, ih (c :: w) (fun x hx => h x (by simp [hx]))]
    simp

theorem pySplitWs_single (l : Str) (h : ∀ c ∈ l, c.isWhitespace = false)
    (hne : l ≠ []) : pySplitWs l = [l] := by
  unfold pySplitWs
  rw [splitWsAux_nonws l [] h]
  simp [hne]

theorem pyInt_head_ne_slash (s : Str) (n : Int) (h : pyInt s = some n) :
    ∃ c u, s = c :: u ∧ c ≠ '/' := by
  cases s with
  | nil => simp [pyInt, pyStrip, pyLStrip] at h
  | cons c u =>
    refine ⟨c, u, rfl, fun hc => ?_⟩
    subst hc
    obtain ⟨v, hv⟩ := pyStrip_cons_of_head '/' u (by decide)
    rw [pyInt, hv] at h
    simp [digitsToNat?] at h

theorem routerCore_int (s : Str) (n : Int) (h : pyInt s = some n) :
    routerCore s = customizeDelta (n - 1) := by
  obtain ⟨c, u, heq, hc⟩ := pyInt_head_ne_slash s n h
  subst heq
  have hsw : ∀ ps : Str, startsWithL (c :: u) ('/' :: ps) = false :=
    fun ps => startsWithL_cons_ne c '/' u ps hc
  have h1 : startsWithL (c :: u) (str "/start") = false := hsw (str "start")
  have h2 : startsWithL (c :: u) (str "/help") = false := hsw (str "help")
  have h3 : startsWithL (c :: u) (str "/search") = false := hsw (str "search")
  have h4 : startsWithL (c :: u) (str "/customize") = false := hsw (str "customize")
  have h5 : startsWithL (c :: u) (str "/export") = false := hsw (str "export")
  have h6 : startsWithL (c :: u) (str "/resume") = false := hsw (str "resume")
  have h7 : startsWithL (c :: u) (str "/chat") = false := hsw (str "chat")
  have h8 : startsWithL (c :: u) (str "/more") = false := hsw (str "more")
  have h9 : startsWithL (c :: u) (str "/compose") = false := hsw (str "compose")
  simp [routerCore, h1, h2, h3, h4, h5, h6, h7, h8, h9, h]

theorem routerCore_search_eq (rest : Str) :
    routerCore (str "/search" ++ rest) =
      parseSearchParts (pySplitWs (pyStrip (pyRemoveAll (str "/search") rest))) := by
  have h1 : startsWithL (str "/search" ++ rest) (str "/start") = false := by
    simp [str, startsWithL]
  have h2 : startsWithL (str "/search" ++ rest) (str "/help") = false := by
    simp [str, startsWithL]
  have h3 : startsWithL (str "/search" ++ rest) (str "/search") = true :=
    startsWithL_append_self _ _
  have hrm : pyRemoveAll (str "/search") (str "/search" ++ rest) =
      pyRemoveAll (str "/search") rest :=
    pyRemoveAll_head_match _ _ (by decide)
  simp [routerCore, h1, h2, h3, hrm]

theorem routerCore_customize_eq (rest : Str) :
    routerCore (str "/customize" ++ rest) =
      parseCustomizeParts (pySplitWs (pyStrip (pyRemoveAll (str "/customize") rest))) := by
  have h1 : startsWithL (str "/customize" ++ rest) (str "/start") = false := by
    simp [str, startsWithL]
  have h2 : startsWithL (str "/customize" ++ rest) (str "/help") = false := by
    simp [str, startsWithL]
  have h3 : startsWithL (str "/customize" ++ rest) (str "/search") = false := by
    simp [str, startsWithL]
  have h4 : startsWithL (str "/customize" ++ rest) (str "/customize") = true :=
    startsWithL_append_self _ _
  have hrm : pyRemoveAll (str "/customize") (str "/customize" ++ rest) =
      pyRemoveAll (str "/customize") rest :=
    pyRemoveAll_head_match _ _ (by decide)
  simp [routerCore, h1, h2, h3, h4, hrm]

theorem routerCore_customize_tok (tok : Str) (n : Int) (hn : pyInt tok = some n)
    (hne : tok ≠ []) (hok : ∀ c ∈ tok, c.isWhitespace = false ∧ c ≠ '/') :
    routerCore (str "/customize " ++ tok) = customizeDelta (n - 1) := by
  have hsplit : str "/customize " ++ tok = str "/customize" ++ (' ' :: tok) := by
    simp [str]
  rw [hsplit, routerCore_customize_eq]
  have hfix : pyRemoveAll (str "/customize") (' ' :: tok) = ' ' :: tok := by
    have : str "/customize" = '/' :: str "customize" := rfl
    rw [this]
    apply pyRemoveAll_fix_of_no_head
    intro c hcmem
    rcases List.mem_cons.mp hcmem with hcm | hcm
    · subst hcm; decide
    · exact (hok c hcm).2
  rw [hfix, pyStrip_space_cons,
    pyStrip_fix tok (fun c hcm => (hok c hcm).1),
    pySplitWs_single tok (fun c hcm => (hok c hcm).1) hne]
  simp [parseCustomizeParts, hn]

theorem remotivePhase_char : ∀ (js acc : List Job) (seen : List Str),
    ∃ ext, remotivePhase js acc seen = (acc ++ ext, seen ++ linksOf ext) ∧
      (linksOf ext).Nodup ∧ ∀ l ∈ linksOf ext, l ∉ seen := by
  intro js
  induction js with
  | nil => intro acc seen; exact ⟨[], by simp [remotivePhase, linksOf]⟩
  | cons j js ih =>
    intro acc seen
    by_cases hmem : seen.contains j.link = true
    · obtain ⟨ext, he, hnd, hni⟩ := ih acc seen
      refine ⟨ext, ?_, hnd, hni⟩
      simp only [remotivePhase]
      rw [if_pos hmem, he]
    · obtain ⟨ext, he, hnd, hni⟩ := ih (acc ++ [j]) (seen ++ [j.link])
      refine ⟨j :: ext, ?_, ?_, ?_⟩
      · simp only [remotivePhase]
        rw [if_neg hmem, he]
        simp [linksOf]
      · simp only [linksOf, List.map_cons, List.nodup_cons]
        refine ⟨fun hmem2 => ?_, hnd⟩
        have := hni _ hmem2
        simp at this
      · intro l hl
        rcases List.mem_cons.mp hl with hl | hl
        · subst hl
          intro hin
          exact hmem (List.elem_iff.mpr hin)
        · intro hin
          exact hni l hl (by simp [hin])

theorem googleInner_char : ∀ (js acc : List Job) (seen : List Str),
    ∃ ext, googleInner js acc seen = (acc ++ ext, seen ++ linksOf ext) ∧
      (linksOf ext).Nodup ∧ ∀ l ∈ linksOf ext, l ∉ seen := by
  intro js
  induction js with
  | nil => intro acc seen; exact ⟨[], by simp [googleInner, linksOf]⟩
  | cons j js ih =>
    intro acc seen
    by_cases hmem : seen.contains j.link = true
    · obtain ⟨ext, he, hnd, hni⟩ := ih acc seen
      refine ⟨ext, ?_, hnd, hni⟩
      simp only [googleInner]
      rw [if_pos hmem, he]
    · by_cases hcap : 20 ≤ (acc ++ [j]).length
      · refine ⟨[j], ?_, by simp [linksOf], ?_⟩
        · simp only [googleInner]
          rw [if_neg hmem, if_pos hcap]
          simp [linksOf]
        · intro l hl
          rcases List.mem_cons.mp hl with hl | hl
          · subst hl
            intro hin
            exact hmem (List.elem_iff.mpr hin)
          · simp at hl
      · obtain ⟨ext, he, hnd, hni⟩ := ih (acc ++ [j]) (seen ++ [j.link])
        refine ⟨j :: ext, ?_, ?_, ?_⟩
        · simp only [googleInner]
          rw [if_neg hmem, if_neg hcap, he]
          simp [linksOf]
        · simp only [linksOf, List.map_cons, List.nodup_cons]
          refine ⟨fun hmem2 => ?_, hnd⟩
          have := hni _ hmem2
          simp at this
        · intro l hl
          rcases List.mem_cons.mp hl with hl | hl
          · subst hl
            intro hin
            exact hmem (List.elem_iff.mpr hin)
          · intro hin
            exact hni l hl (by simp [hin])

theorem googlePhase_char (google : Str → Option Str → List Job) (loc : Option Str) :
    ∀ (vs : List Str) (acc : List Job) (seen : List Str),
    ∃ ext, googlePhase google loc vs acc seen = (acc ++ ext, seen ++ linksOf ext) ∧
      (linksOf ext).Nodup ∧ ∀ l ∈ linksOf ext, l ∉ seen := by
  intro vs
  induction vs with
  | nil => intro acc seen; exact ⟨[], by simp [googlePhase, linksOf]⟩
  | cons v vs ih =>
    intro acc seen
    by_cases hstop : 15 ≤ acc.length
    · refine ⟨[], ?_, by simp [linksOf], by simp [linksOf]⟩
      simp only [googlePhase]
      rw [if_pos hstop]
      simp [linksOf]
    · obtain ⟨ext1, he1, hnd1, hni1⟩ := googleInner_char (google v loc) acc seen
      obtain ⟨ext2, he2, hnd2, hni2⟩ := ih (acc ++ ext1) (seen ++ linksOf ext1)
      refine ⟨ext1 ++ ext2, ?_, ?_, ?_⟩
      · simp only [googlePhase]
        rw [if_neg hstop]
        simp only [he1, he2]
        rw [show linksOf (ext1 ++ ext2) = linksOf ext1 ++ linksOf ext2 from by
          simp [linksOf]]
        simp [List.append_assoc]
      · rw [show linksOf (ext1 ++ ext2) = linksOf ext1 ++ linksOf ext2 from by
          simp [linksOf]]
        refine List.Nodup.append hnd1 hnd2 ?_
        intro l hl1 hl2
        exact hni2 l hl2 (by simp [hl1])
      · intro l hl
        rw [show linksOf (ext1 ++ ext2) = linksOf ext1 ++ linksOf ext2 from by
          simp [linksOf]] at hl
        rcases List.mem_append.mp hl with hl | hl
        · exact hni1 l hl
        · intro hin
          exact hni2 l hl (by simp [hin])

theorem googlePhase_stop (google : Str → Option Str → List Job) (loc : Option Str)
    (vs : List Str) (acc : List Job) (seen : List Str) (h : 15 ≤ acc.length) :
    googlePhase google loc vs acc seen = (acc, seen) := by
  cases vs with
  | nil => rfl
  | cons v vs =>
    simp only [googlePhase]
    rw [if_pos h]

theorem googleInner_cap : ∀ (js acc : List Job) (seen : List Str),
    acc.length < 20 → (googleInner js acc seen).1.length ≤ 20 := by
  intro js
  induction js with
  | nil => intro acc seen h; simpa [googleInner] using le_of_lt h
  | cons j js ih =>
    intro acc seen h
    by_cases hmem : seen.contains j.link = true
    · simp only [googleInner]
      rw [if_pos hmem]
      exact ih acc seen h
    · by_cases hcap : 20 ≤ (acc ++ [j]).length
      · simp only [googleInner]
        rw [if_neg hmem, if_pos hcap]
        simp only [List.length_append, List.length_singleton]
        omega
      · simp only [googleInner]
        rw [if_neg hmem, if_neg hcap]
        apply ih
        simp only [List.length_append, List.length_singleton] at hcap ⊢
        omega

theorem googlePhase_cap (google : Str → Option Str → List Job) (loc : Option Str) :
    ∀ (vs : List Str) (acc : List Job) (seen : List Str),
    acc.length ≤ 20 → (googlePhase google loc vs acc seen).1.length ≤ 20 := by
  intro vs
  induction vs with
  | nil => intro acc seen h; simpa [googlePhase] using h
  | cons v vs ih =>
    intro acc seen h
    by_cases hstop : 15 ≤ acc.length
    · rw [googlePhase_stop google loc (v :: vs) acc seen hstop]
      exact h
    · simp only [googlePhase]
      rw [if_neg hstop]
      apply ih
      exact googleInner_cap (google v loc) acc seen (by omega)

theorem googlePhase_total_cap (google : Str → Option Str → List Job) (loc : Option Str)
    (vs : List Str) (acc : List Job) (seen : List Str) :
    (googlePhase google loc vs acc seen).1.length ≤ max acc.length 20 := by
  by_cases hstop : 15 ≤ acc.length
  · rw [googlePhase_stop google loc vs acc seen hstop]
    exact le_max_left _ _
  · exact le_trans (googlePhase_cap google loc vs acc seen (by omega)) (le_max_right _ _)

theorem rangeStep_cons (a b c : Nat) (h : a < b) (hc : 0 < c) :
    rangeStep a b c = a :: rangeStep (a + c) b c := by
  conv_lhs => rw [rangeStep]
  rw [dif_pos ⟨h, hc⟩]

theorem rangeStep_nil (a b c : Nat) (h : ¬(a < b ∧ 0 < c)) :
    rangeStep a b c = [] := by
  conv_lhs => rw [rangeStep]
  rw [dif_neg h]

theorem slices_join_aux (s : Str) (k : Nat) (hk : 0 < k) :
    ∀ bound i, s.length - i ≤ bound →
      ((rangeStep i s.length k).map (fun j => (s.drop j).take k)).flatten = s.drop i := by
  intro bound
  induction bound with
  | zero =>
    intro i hi
    rw [rangeStep_nil _ _ _ (by omega)]
    simp [List.drop_eq_nil_of_le (show s.length ≤ i by omega)]
  | succ b ihb =>
    intro i hi
    by_cases h : i < s.length
    · rw [rangeStep_cons _ _ _ h hk]
      simp only [List.map_cons, List.flatten_cons]
      rw [ihb (i + k) (by omega)]
      rw [show s.drop (i + k) = (s.drop i).drop k from (List.drop_drop k i s).symm]
      exact List.take_append_drop k (s.drop i)
    · rw [rangeStep_nil _ _ _ (by omega)]
      simp [List.drop_eq_nil_of_le (show s.length ≤ i by omega)]

theorem slices_sizes_aux (s : Str) (k : Nat) (hk : 0 < k) :
    ∀ bound i, s.length - i ≤ bound →
      ∀ w ∈ ((rangeStep i s.length k).map (fun j => (s.drop j).take k)).dropLast,
        w.length = k := by
  intro bound
  induction bound with
  | zero =>
    intro i hi w hw
    rw [rangeStep_nil _ _ _ (by omega)] at hw
    simp at hw
  | succ b ihb =>
    intro i hi w hw
    by_cases h : i < s.length
    · rw [rangeStep_cons _ _ _ h hk] at hw
      simp only [List.map_cons] at hw
      by_cases hrest : rangeStep (i + k) s.length k = []
      · rw [hrest] at hw
        simp at hw
      · have hmapne : (rangeStep (i + k) s.length k).map (fun j => (s.drop j).take k) ≠ [] := by
          simp [hrest]
        rw [List.dropLast_cons_of_ne_nil hmapne] at hw
        rcases List.mem_cons.mp hw with hw | hw
        · subst hw
          have hik : i + k < s.length := by
            by_contra hge
            exact hrest (rangeStep_nil _ _ _ (by omega))
          rw [List.length_take, List.length_drop]
          omega
        · exact ihb (i + k) (by omega) w hw
    · rw [rangeStep_nil _ _ _ (by omega)] at hw
      simp at hw

/-- C1, counterexample: a session holding one prior search result loses it
when a later search fails.  With `jobsFound = [sampleJob "a"]` and
`SearchJobs` returning an error, the merged state has an empty `jobsFound`,
so the search handler does not leave `jobsFound` exactly as it was before
the turn: the error delta explicitly contains `jobs_found = []`. -/
theorem C1_counterexample :
    (applyDelta stSearchDone (job_search_node stSearchDone (.error (str "boom")))).jobs_found ≠
      stSearchDone.jobs_found := by
  decide

/-- C1, amended: when `SearchJobs` returns an error (and a query is
present), the search handler converts the failure into an error kind plus
a user-facing failure message, but it also resets `jobsFound` to the empty
list in the same delta; every field other than `response`, `error` and
`jobs_found` is left exactly as it was before the turn. -/
theorem C1_search_error_resets_jobs (state : AgentState) (e : Str)
    (hq : pyTruthy state.search_query = true) :
    job_search_node state (.error e) =
      { response := some (str "❌ Search failed: " ++ e)
        error := some (some e)
        jobs_found := some [] } ∧
    (applyDelta state (job_search_node state (.error e))).jobs_found = [] ∧
    (applyDelta state (job_search_node state (.error e))).response =
      str "❌ Search failed: " ++ e ∧
    (applyDelta state (job_search_node state (.error e))).error = some e ∧
    (applyDelta state (job_search_node state (.error e))).telegram_user_id = state.telegram_user_id ∧
    (applyDelta state (job_search_node state (.error e))).base_resume = state.base_resume ∧
    (applyDelta state (job_search_node state (.error e))).search_query = state.search_query ∧
    (applyDelta state (job_search_node state (.error e))).location = state.location ∧
    (applyDelta state (job_search_node state (.error e))).selected_job_index = state.selected_job_index ∧
    (applyDelta state (job_search_node state (.error e))).selected_job = state.selected_job ∧
    (applyDelta state (job_search_node state (.error e))).customized_resume = state.customized_resume ∧
    (applyDelta state (job_search_node state (.error e))).cover_letter = state.cover_letter ∧
    (applyDelta state (job_search_node state (.error e))).composed_pdf_path = state.composed_pdf_path ∧
    (applyDelta state (job_search_node state (.error e))).sheets_exported = state.sheets_exported ∧
    (applyDelta state (job_search_node state (.error e))).sheets_url = state.sheets_url ∧
    (applyDelta state (job_search_node state (.error e))).messages = state.messages := by
  have hd : job_search_node state (.error e) =
      { response := some (str "❌ Search failed: " ++ e)
        error := some (some e)
        jobs_found := some [] } := by
    simp [job_search_node, hq]
  refine ⟨hd, ?_⟩
  rw [hd]
  simp [applyDelta]

/-- C1, witness: the amended statement applied at a concrete session. -/
theorem C1_witness :
    pyTruthy stSearchDone.search_query = true ∧
    (applyDelta stSearchDone (job_search_node stSearchDone (.error (str "x")))).jobs_found = [] :=
  ⟨by decide, (C1_search_error_resets_jobs stSearchDone (str "x") (by decide)).2.1⟩

/-- C2, counterexample: with `jobsFound` empty (n = 0) every index is
outside the valid range, yet the handler answers with the no-jobs
precondition delta, whose message does not reference the range, and not
with the validation error that references n. -/
theorem C2_counterexample :
    customizer_node stNoJobs (.ok (str "cr")) (.ok (str "cl")) = .ok noJobsDelta ∧
    noJobsDelta ≠ invalidIdxDelta 0 := by
  constructor
  · rfl
  · decide

/-- C2, amended: for sessions whose `jobsFound` has length n with n ≥ 1,
the customize handler rejects every integer index outside [0, n-1] with
the validation error whose message names the valid range 1..n, and
accepts every index inside [0, n-1]: the indexed access succeeds, and
with a (truthy) resume present the handler proceeds to document
generation for exactly the selected job.  (For n = 0 the handler answers
with the distinct no-jobs precondition error instead, see the
counterexample.) -/
theorem C2_customize_bounds (state : AgentState) (r1 r2 : Except Str Str)
    (n : Nat) (idx : Int)
    (hn : state.jobs_found.length = n) (hn1 : 1 ≤ n)
    (hidx : state.selected_job_index = some idx) :
    ((idx < 0 ∨ (n : Int) ≤ idx) →
      customizer_node state r1 r2 = .ok (invalidIdxDelta n) ∧
      (invalidIdxDelta n).response =
        some (str "❌ Invalid job number. Please choose 1-" ++ natToDigits n ++ str ".")) ∧
    (0 ≤ idx → idx < (n : Int) →
      pyIndex state.jobs_found idx ≠ none ∧
      (pyTruthy state.base_resume = true →
        ∀ j, pyIndex state.jobs_found idx = some j →
          customizer_node state r1 r2 = .ok (customizerGenerate j r1 r2))) := by
  have hne : state.jobs_found.isEmpty = false := by
    cases hjf : state.jobs_found with
    | nil => rw [hjf] at hn; simp at hn; omega
    | cons a as => simp
  constructor
  · intro hout
    have hcond : (idx < 0 || (state.jobs_found.length : Int) ≤ idx) = true := by
      rw [hn]
      rcases hout with hout | hout <;> simp [hout]
    constructor
    · simp only [customizer_node, hidx]
      rw [if_neg (by simp [hne]), if_pos (by rw [hn] at hcond ⊢; exact hcond), hn]
    · rfl
  · intro h0 hlt
    have hcond : (idx < 0 || (state.jobs_found.length : Int) ≤ idx) = false := by
      rw [hn]
      simp
      omega
    have htn : idx.toNat < state.jobs_found.length := by omega
    constructor
    · intro hnone
      unfold pyIndex at hnone
      rw [if_neg (by omega)] at hnone
      rw [if_neg (by omega)] at hnone
      rw [List.get?_eq_get htn] at hnone
      simp at hnone
    · intro hres j hj
      simp only [customizer_node, hidx]
      rw [if_neg (by simp [hne]), if_neg (by simp; omega),
        if_neg (by simp [hres]), hj]

/-- C2, witness: the amended statement at n = 2 with the out-of-range
index 5. -/
theorem C2_witness :
    stTwoJobs.jobs_found.length = 2 ∧
    stTwoJobs.selected_job_index = some 5 ∧
    customizer_node stTwoJobs (.ok (str "cr")) (.ok (str "cl")) = .ok (invalidIdxDelta 2) :=
  ⟨by decide, by decide,
    ((C2_customize_bounds stTwoJobs (.ok (str "cr")) (.ok (str "cl")) 2 5
      (by decide) (by decide) (by decide)).1 (Or.inr (by decide))).1⟩

/-- C6: whenever `customizedResume` or `coverLetter` is absent, the
compose handler returns the precondition-failure delta whose message
directs the user to run /customize first, and that delta carries no
artifact path. -/
theorem C6_compose_preconditions (state : AgentState) (composeRes : Except Str Str)
    (pathEx : Str → Bool)
    (h : state.customized_resume = none ∨ state.cover_letter = none) :
    composer_node state composeRes pathEx = missingDocsDelta ∧
    (composer_node state composeRes pathEx).composed_pdf_path = none ∧
    missingDocsDelta.response =
      some (str "❌ No customized resume or cover letter found. Please use /customize first.") ∧
    missingDocsDelta.error = some (some (str "Missing documents for composition")) := by
  have hd : composer_node state composeRes pathEx = missingDocsDelta := by
    rcases h with h | h <;> simp [composer_node, h, pyTruthy]
  exact ⟨hd, by rw [hd]; rfl, rfl, rfl⟩

/-- C6, witness: the statement applied at a blank session (both documents
absent). -/
theorem C6_witness :
    baseState.customized_resume = none ∧
    composer_node baseState (.ok (str "p")) (fun _ => true) = missingDocsDelta :=
  ⟨by decide,
    (C6_compose_preconditions baseState (.ok (str "p")) (fun _ => true) (Or.inl (by decide))).1⟩

/-- C3, counterexample: the claimed tokenization ("the remaining tokens
joined become keywords") fails for `/search dev/search remote`.  The
tokens after the command are `dev/search` and `remote`, and the last one
is a location keyword, so the claim requires keywords `dev/search`; but
the code removes every occurrence of the literal `/search` from the whole
message (Python `replace`, router.py line 97) before splitting, so the
parser produces keywords `dev` instead. -/
theorem C3_counterexample :
    pySplitWs (pyStrip (str " dev/search remote")) = [str "dev/search", str "remote"] ∧
    routerCore (str "/search dev/search remote") = searchDelta (str "dev") (str "remote") ∧
    searchDelta (str "dev") (str "remote") ≠ searchDelta (str "dev/search") (str "remote") := by
  refine ⟨by decide, by decide, by decide⟩

/-- C3, amended: for every message of the form `/search` followed by
`rest` (already stripped and lower-cased), the parser operates on the
token list `parts` obtained by removing every occurrence of the literal
`/search` from the remainder and splitting on whitespace — so embedded
`/search` substrings are stripped from the keywords too, and only when
`rest` contains no further occurrence are these exactly the tokens after
the command.  On that token list the claimed rules hold: zero tokens
yield the usage-error help delta and no search intent; if the last token
is one of remote/hybrid/onsite or more than two tokens are present, the
last token becomes the location and the remaining tokens joined by
single spaces become the keywords; otherwise all tokens joined become
the keywords and the location defaults to remote.  The scenario message
`/search python developer remote` yields searchQuery `python developer`
and location `remote` through the full router. -/
theorem C3_search_parsing (rest : Str) (parts : List Str)
    (hparts : parts = pySplitWs (pyStrip (pyRemoveAll (str "/search") rest))) :
    (parts = [] → routerCore (str "/search" ++ rest) = searchUsageDelta) ∧
    (∀ ini t, parts = ini ++ [t] →
      ((locationKeywords.contains (pyLower t) || decide (2 < parts.length)) = true →
        routerCore (str "/search" ++ rest) = searchDelta (pyJoin ini) t) ∧
      ((locationKeywords.contains (pyLower t) || decide (2 < parts.length)) = false →
        routerCore (str "/search" ++ rest) = searchDelta (pyJoin parts) (str "remote"))) ∧
    router_node stScenario = searchDelta (str "python developer") (str "remote") := by
  have hcore : routerCore (str "/search" ++ rest) = parseSearchParts parts := by
    rw [routerCore_search_eq, ← hparts]
  refine ⟨?_, ?_, by decide⟩
  · intro hnil
    rw [hcore, hnil]
    rfl
  · intro ini t hsplit
    constructor
    · intro hcond
      rw [hcore]
      simp only [parseSearchParts]
      rw [if_neg (by rw [hsplit]; simp)]
      rw [if_pos (by rw [hsplit] at hcond ⊢; simpa [List.getLastD_concat] using hcond)]
      rw [hsplit, List.getLastD_concat, List.dropLast_concat]
    · intro hcond
      rw [hcore]
      simp only [parseSearchParts]
      rw [if_neg (by rw [hsplit]; simp)]
      rw [if_neg (by
        rw [hsplit] at hcond
        rw [hsplit, List.getLastD_concat]
        simp at hcond ⊢
        exact hcond)]

/-- C3, witness: the amended parsing statement applied at the scenario
message. -/
theorem C3_witness :
    pySplitWs (pyStrip (pyRemoveAll (str "/search") (str " python developer remote"))) =
      [str "python", str "developer"] ++ [str "remote"] ∧
    routerCore (str "/search" ++ str " python developer remote") =
      searchDelta (pyJoin [str "python", str "developer"]) (str "remote") :=
  ⟨by decide,
    (((C3_search_parsing (str " python developer remote") _ rfl).2.1)
      [str "python", str "developer"] (str "remote") (by decide)).1 (by decide)⟩

/-- C7: any message whose stripped, lower-cased text parses as an integer
n (and therefore carries no leading slash) produces exactly the customize
intent with selectedJobIndex = n - 1, the same intent that the message
`/customize <tok>` produces for any integer token parsing to the same n;
neither path performs any bounds validation, which is left to the
customize handler. -/
theorem C7_integer_shorthand (s tok : Str) (n : Int)
    (hs : pyInt s = some n) (htok : pyInt tok = some n) (hne : tok ≠ [])
    (hok : ∀ c ∈ tok, c.isWhitespace = false ∧ c ≠ '/') :
    routerCore s = customizeDelta (n - 1) ∧
    routerCore (str "/customize " ++ tok) = customizeDelta (n - 1) ∧
    routerCore s = routerCore (str "/customize " ++ tok) := by
  have h1 := routerCore_int s n hs
  have h2 := routerCore_customize_tok tok n htok hne hok
  exact ⟨h1, h2, by rw [h1, h2]⟩

/-- C7, witness: the shorthand statement at the bare text ` 7` and the
command `/customize 7`. -/
theorem C7_witness :
    pyInt (str " 7") = some 7 ∧ pyInt (str "7") = some 7 ∧
    routerCore (str " 7") = customizeDelta (7 - 1) ∧
    routerCore (str "/customize " ++ str "7") = customizeDelta (7 - 1) := by
  refine ⟨by decide, by decide, ?_, ?_⟩
  · exact (C7_integer_shorthand (str " 7") (str "7") 7 (by decide) (by decide)
      (by decide) (by decide)).1
  · exact (C7_integer_shorthand (str " 7") (str "7") 7 (by decide) (by decide)
      (by decide) (by decide)).2.1

/-- C10: for every nonpositive integer n, the parser converts both the
bare integer text and `/customize <tok>` into a customize intent with the
negative index n - 1 and no usage error; the customize handler then
rejects every negative index before any list access (with the no-jobs
error when `jobsFound` is empty, the range validation error otherwise),
and on no execution path does the handler let the list access escape as
an exception: it always returns a delta, so `jobsFound` is never indexed
outside [0, len). -/
theorem C10_nonpositive_safe (s tok : Str) (n : Int)
    (hs : pyInt s = some n) (htok : pyInt tok = some n) (hne : tok ≠ [])
    (hok : ∀ c ∈ tok, c.isWhitespace = false ∧ c ≠ '/') (hn : n ≤ 0) :
    routerCore s = customizeDelta (n - 1) ∧
    routerCore (str "/customize " ++ tok) = customizeDelta (n - 1) ∧
    (∀ state r1 r2, state.selected_job_index = some (n - 1) →
      customizer_node state r1 r2 =
        .ok (if state.jobs_found.isEmpty then noJobsDelta
             else invalidIdxDelta state.jobs_found.length)) ∧
    (∀ state r1 r2, ∃ d, customizer_node state r1 r2 = .ok d) := by
  refine ⟨routerCore_int s n hs, routerCore_customize_tok tok n htok hne hok, ?_, ?_⟩
  · intro state r1 r2 hidx
    simp only [customizer_node, hidx]
    by_cases hje : state.jobs_found.isEmpty
    · rw [if_pos hje, if_pos hje]
    · rw [if_neg hje, if_neg hje,
        if_pos (by simp; omega)]
  · intro state r1 r2
    rcases hsel : state.selected_job_index with _ | idx
    · exact ⟨noJobSelectedDelta, by simp [customizer_node, hsel]⟩
    · simp only [customizer_node, hsel]
      by_cases hje : state.jobs_found.isEmpty = true
      · exact ⟨noJobsDelta, by rw [if_pos hje]⟩
      · by_cases hrange : (idx < 0 || (state.jobs_found.length : Int) ≤ idx) = true
        · refine ⟨invalidIdxDelta state.jobs_found.length, ?_⟩
          rw [if_neg (by simp [hje]), if_pos hrange]
        · have h0 : 0 ≤ idx := by
            simp at hrange
            omega
          have hlt : idx.toNat < state.jobs_found.length := by
            simp at hrange
            omega
          obtain ⟨j, hj⟩ : ∃ j, pyIndex state.jobs_found idx = some j := by
            unfold pyIndex
            rw [if_neg (by omega), if_neg (by omega), List.get?_eq_get hlt]
            exact ⟨_, rfl⟩
          by_cases hres : (!pyTruthy state.base_resume) = true
          · refine ⟨noResumeDelta, ?_⟩
            rw [if_neg (by simp [hje]), if_neg (by simp [hrange]), if_pos hres]
          · refine ⟨customizerGenerate j r1 r2, ?_⟩
            rw [if_neg (by simp [hje]), if_neg (by simp [hrange]), if_neg hres, hj]

/-- C10, witness: the statement at n = 0 (message `0`, command token `0`)
and a session with one job, a resume and selected index -1. -/
theorem C10_witness :
    pyInt (str "0") = some 0 ∧
    routerCore (str "0") = customizeDelta (0 - 1) ∧
    stNegIdx.selected_job_index = some (0 - 1) ∧
    customizer_node stNegIdx (.ok (str "cr")) (.ok (str "cl")) =
      .ok (if stNegIdx.jobs_found.isEmpty then noJobsDelta
           else invalidIdxDelta stNegIdx.jobs_found.length) := by
  have h := C10_nonpositive_safe (str "0") (str "0") 0 (by decide) (by decide)
    (by decide) (by decide) (by decide)
  exact ⟨by decide, h.1, by decide,
    h.2.2.1 stNegIdx (.ok (str "cr")) (.ok (str "cl")) (by decide)⟩


theorem more_jobs_jobs_found (state : AgentState) (vars : List Str)
    (remotive : List Job) (google : Str → Option Str → List Job) (jf : List Job)
    (hjf : (more_jobs_node state vars remotive google).jobs_found = some jf) :
    jf = state.jobs_found ++
      (googlePhase google state.location vars
        (remotivePhase remotive [] (linksOf state.jobs_found)).1
        (remotivePhase remotive [] (linksOf state.jobs_found)).2).1 := by
  simp only [more_jobs_node] at hjf
  iterate 4 (all_goals (try split at hjf))
  all_goals simp at hjf
  all_goals exact hjf.symm

/-- C4, counterexample: one fetch-more turn can append more than 20 jobs.
With an empty `jobsFound`, a stored query, no variations and a Remotive
reply of 21 jobs with pairwise distinct links, all 21 are appended: the
Remotive loop has no cap, only the variation loop stops at 15/20. -/
theorem C4_counterexample :
    stQueryOnly.jobs_found = [] ∧
    ((more_jobs_node stQueryOnly [] manyLinkedJobs emptyGoogle).jobs_found.getD []).length = 21 := by
  constructor
  · decide
  · decide

/-- C4, amended: in one fetch-more turn the handler stops issuing new
secondary (variation) searches once 15 jobs have accumulated, and the
variation loop stops appending once 20 have accumulated; consequently the
number of jobs held after the turn is bounded by the old length plus
max(r, 20), where r is the number of deduplicated jobs delivered by the
(uncapped) Remotive phase.  The appended total can therefore exceed 20
exactly when the Remotive reply alone does (see the counterexample). -/
theorem C4_fetchmore_caps (state : AgentState) (vars : List Str)
    (remotive : List Job) (google : Str → Option Str → List Job) (jf : List Job)
    (hjf : (more_jobs_node state vars remotive google).jobs_found = some jf) :
    jf.length ≤ state.jobs_found.length +
      max (remotivePhase remotive [] (linksOf state.jobs_found)).1.length 20 ∧
    (∀ (acc : List Job) (seen : List Str), 15 ≤ acc.length →
      googlePhase google state.location vars acc seen = (acc, seen)) ∧
    (∀ (js acc : List Job) (seen : List Str), acc.length < 20 →
      (googleInner js acc seen).1.length ≤ 20) := by
  refine ⟨?_, fun acc seen hgt => googlePhase_stop google state.location vars acc seen hgt,
    fun js acc seen hlt => googleInner_cap js acc seen hlt⟩
  rw [more_jobs_jobs_found state vars remotive google jf hjf, List.length_append]
  have hb := googlePhase_total_cap google state.location vars
    (remotivePhase remotive [] (linksOf state.jobs_found)).1
    (remotivePhase remotive [] (linksOf state.jobs_found)).2
  omega

/-- C4, witness: the amended bound applied at a session with an empty
result list and a one-job Remotive reply. -/
theorem C4_witness :
    (more_jobs_node stQueryOnly [] [sampleJob (str "a")] emptyGoogle).jobs_found =
      some [sampleJob (str "a")] ∧
    [sampleJob (str "a")].length ≤ stQueryOnly.jobs_found.length +
      max (remotivePhase [sampleJob (str "a")] [] (linksOf stQueryOnly.jobs_found)).1.length 20 :=
  ⟨by decide,
    (C4_fetchmore_caps stQueryOnly [] [sampleJob (str "a")] emptyGoogle
      [sampleJob (str "a")] (by decide)).1⟩

/-- C5: whenever a fetch-more turn updates `jobsFound`, the new value is
the old list with a block of new jobs appended after it (old entries and
their indices are untouched); the appended jobs have pairwise distinct
links and none of them carries the link of a job already present before
the turn. -/
theorem C5_fetchmore_dedup (state : AgentState) (vars : List Str)
    (remotive : List Job) (google : Str → Option Str → List Job) (jf : List Job)
    (hjf : (more_jobs_node state vars remotive google).jobs_found = some jf) :
    ∃ extra, jf = state.jobs_found ++ extra ∧
      (linksOf extra).Nodup ∧
      ∀ j ∈ extra, j.link ∉ linksOf state.jobs_found := by
  have hjf' := more_jobs_jobs_found state vars remotive google jf hjf
  obtain ⟨ext1, he1, hnd1, hni1⟩ := remotivePhase_char remotive [] (linksOf state.jobs_found)
  rw [he1] at hjf'
  simp only [List.nil_append] at hjf'
  obtain ⟨ext2, he2, hnd2, hni2⟩ := googlePhase_char google state.location vars
    ext1 (linksOf state.jobs_found ++ linksOf ext1)
  rw [he2] at hjf'
  simp only at hjf'
  refine ⟨ext1 ++ ext2, hjf', ?_, ?_⟩
  · rw [show linksOf (ext1 ++ ext2) = linksOf ext1 ++ linksOf ext2 from by
      simp [linksOf]]
    refine List.Nodup.append hnd1 hnd2 ?_
    intro l hl1 hl2
    exact hni2 l hl2 (by simp [hl1])
  · intro j hj
    rcases List.mem_append.mp hj with hj | hj
    · exact hni1 j.link (List.mem_map_of_mem Job.link hj)
    · intro hin
      exact hni2 j.link (List.mem_map_of_mem Job.link hj) (by simp [hin])

/-- C5, witness: the statement applied at a session holding one job, a
Remotive reply repeating that link plus one fresh job. -/
theorem C5_witness :
    (more_jobs_node stSearchDone [] [sampleJob (str "a"), sampleJob (str "b")] emptyGoogle).jobs_found =
      some [sampleJob (str "a"), sampleJob (str "b")] ∧
    ∃ extra, [sampleJob (str "a"), sampleJob (str "b")] = stSearchDone.jobs_found ++ extra ∧
      (linksOf extra).Nodup ∧
      ∀ j ∈ extra, j.link ∉ linksOf stSearchDone.jobs_found :=
  ⟨by decide,
    C5_fetchmore_dedup stSearchDone [] [sampleJob (str "a"), sampleJob (str "b")]
      emptyGoogle [sampleJob (str "a"), sampleJob (str "b")] (by decide)⟩

/-- C8, counterexample: a successful customize can set `customizedResume`
to the EMPTY string when the resume-generation collaborator returns empty
text: the pair is set together, but not necessarily to non-empty text. -/
theorem C8_counterexample :
    customizer_node stOneJob (.ok []) (.ok (str "cl")) =
      .ok (customizerGenerate (sampleJob (str "a")) (.ok []) (.ok (str "cl"))) ∧
    (customizerGenerate (sampleJob (str "a")) (.ok []) (.ok (str "cl"))).customized_resume =
      some [] ∧
    (customizerGenerate (sampleJob (str "a")) (.ok []) (.ok (str "cl"))).cover_letter =
      some (str "cl") :=
  ⟨rfl, rfl, rfl⟩

/-- C8, amended: `customizedResume` and `coverLetter` are always produced
as a pair — every delta the customize handler returns either sets neither
or sets both in the same update, to exactly the two collaborator outputs
(hence they are non-empty whenever the collaborator outputs are); no
execution path sets one of the two without the other. -/
theorem C8_customize_pairing (state : AgentState) (r1 r2 : Except Str Str)
    (d : StateDelta) (h : customizer_node state r1 r2 = .ok d) :
    (d.customized_resume = none ∧ d.cover_letter = none) ∨
    (∃ cr cl, r1 = .ok cr ∧ r2 = .ok cl ∧
      d.customized_resume = some cr ∧ d.cover_letter = some cl) := by
  rcases hsel : state.selected_job_index with _ | idx
  · simp only [customizer_node, hsel] at h
    have hd := Except.ok.inj h
    subst hd
    left
    exact ⟨rfl, rfl⟩
  · simp only [customizer_node, hsel] at h
    split at h
    · have hd := Except.ok.inj h
      subst hd
      left
      exact ⟨rfl, rfl⟩
    · split at h
      · have hd := Except.ok.inj h
        subst hd
        left
        exact ⟨rfl, rfl⟩
      · split at h
        · have hd := Except.ok.inj h
          subst hd
          left
          exact ⟨rfl, rfl⟩
        · split at h
          · simp at h
          · have hd := Except.ok.inj h
            subst hd
            cases r1 with
            | error e => left; exact ⟨rfl, rfl⟩
            | ok cr =>
              cases r2 with
              | error e => left; exact ⟨rfl, rfl⟩
              | ok cl => right; exact ⟨cr, cl, rfl, rfl, rfl, rfl⟩

/-- C8, witness: the pairing statement at a successful concrete customize. -/
theorem C8_witness :
    customizer_node stOneJob (.ok (str "cr")) (.ok (str "cl")) =
      .ok (customizerGenerate (sampleJob (str "a")) (.ok (str "cr")) (.ok (str "cl"))) ∧
    (((customizerGenerate (sampleJob (str "a")) (.ok (str "cr")) (.ok (str "cl"))).customized_resume = none ∧
      (customizerGenerate (sampleJob (str "a")) (.ok (str "cr")) (.ok (str "cl"))).cover_letter = none) ∨
     (∃ cr cl, (Except.ok (str "cr") : Except Str Str) = .ok cr ∧
       (Except.ok (str "cl") : Except Str Str) = .ok cl ∧
       (customizerGenerate (sampleJob (str "a")) (.ok (str "cr")) (.ok (str "cl"))).customized_resume = some cr ∧
       (customizerGenerate (sampleJob (str "a")) (.ok (str "cr")) (.ok (str "cl"))).cover_letter = some cl)) :=
  ⟨rfl, C8_customize_pairing stOneJob (.ok (str "cr")) (.ok (str "cl")) _ rfl⟩

/-- C9: a response longer than the 4000-character transport limit is sent
as the slices `response[i:i+4000]` for `i = 0, 4000, 8000, ...`: every
slice except possibly the last has length exactly 4000, no slice exceeds
4000, and the concatenation of the slices in order reconstructs the
original text exactly. -/
theorem C9_chunking (resp : Str) (h : 4000 < resp.length) :
    sendResponseChunks resp = pySliceChunks resp ∧
    (pySliceChunks resp).flatten = resp ∧
    (∀ w ∈ (pySliceChunks resp).dropLast, w.length = 4000) ∧
    (∀ w ∈ pySliceChunks resp, w.length ≤ 4000) := by
  refine ⟨by simp [sendResponseChunks, h], ?_, ?_, ?_⟩
  · have hj := slices_join_aux resp 4000 (by norm_num) resp.length 0 (by omega)
    simpa [pySliceChunks] using hj
  · intro w hw
    exact slices_sizes_aux resp 4000 (by norm_num) resp.length 0 (by omega) w hw
  · intro w hw
    obtain ⟨j, hjm, rfl⟩ := List.mem_map.mp hw
    rw [List.length_take]
    exact min_le_left _ _

/-- C9, witness: the chunking statement at a 4001-character response. -/
theorem C9_witness :
    4000 < (List.replicate 4001 'a' : Str).length ∧
    (pySliceChunks (List.replicate 4001 'a')).flatten = List.replicate 4001 'a' :=
  ⟨by rw [List.length_replicate]; norm_num,
    (C9_chunking (List.replicate 4001 'a') (by rw [List.length_replicate]; norm_num)).2.1⟩
